import Mathlib

/-!
Shallow embedding of `extract_inserts_advanced.js` from the dump_processor
repository: a tool that parses PostgreSQL dump files and rewrites
`COPY ... FROM stdin` blocks into `INSERT` statements.

JavaScript strings are modelled as Lean `String`; the character-level
operations the source uses (`split`, `trim`, `join`, `includes`,
`startsWith`, `endsWith`, `toLowerCase`, single-character global `replace`)
are embedded as explicit list-of-character functions so that every
definition evaluates by kernel reduction.
-/

namespace DumpProc

/-- JS `s.split(c)` on a single-character separator, at the character-list
level: `"a\nb".split("\n") = ["a","b"]`, `"a\n".split("\n") = ["a",""]`,
`"".split("\n") = [""]`. -/
def splitOnChar (c : Char) : List Char → List (List Char)
  | [] => [[]]
  | x :: xs =>
    if x = c then [] :: splitOnChar c xs
    else
      match splitOnChar c xs with
      | h :: t => (x :: h) :: t
      | [] => [[x]]

/-- JS `s.split(c)` for a one-character separator string. -/
def jsSplit (s : String) (c : Char) : List String :=
  (splitOnChar c s.toList).map String.mk

/-- JS `s.trim()`: strip leading and trailing whitespace (the source only
meets ASCII whitespace, covered by `Char.isWhitespace`). -/
def jsTrim (s : String) : String :=
  String.mk (((s.toList.dropWhile Char.isWhitespace).reverse.dropWhile Char.isWhitespace).reverse)

/-- JS `arr.join(sep)`. -/
def joinWith (sep : String) (xs : List String) : String :=
  String.mk (List.intercalate sep.toList (xs.map String.toList))

/-- Whether `sub` occurs as a contiguous sublist of the second argument. -/
def hasSubList (sub : List Char) : List Char → Bool
  | [] => sub.isEmpty
  | c :: rest => sub.isPrefixOf (c :: rest) || hasSubList sub rest

/-- JS `s.includes(sub)`: substring containment test. -/
def jsIncludes (s sub : String) : Bool :=
  hasSubList sub.toList s.toList

/-- JS `s.startsWith(p)`. -/
def jsStartsWith (s p : String) : Bool :=
  p.toList.isPrefixOf s.toList

/-- JS `s.endsWith(p)`. -/
def jsEndsWith (s p : String) : Bool :=
  p.toList.isSuffixOf s.toList

/-- JS `s.toLowerCase()` (ASCII range, as used by the source). -/
def jsToLower (s : String) : String :=
  String.mk (s.toList.map Char.toLower)

/-- JS `value.replace(/'/g, "''")`: double every single quote. -/
def doubleQuotes (s : String) : String :=
  String.mk (s.toList.flatMap fun c => if c = '\'' then ['\'', '\''] else [c])

/-- JS `escaped.replace(/\0/g, '')`: remove every null character. -/
def removeNulls (s : String) : String :=
  String.mk (s.toList.filter fun c => c ≠ '\x00')

/-- JS `idCol.replace(/"/g, '')`: remove every double quote. -/
def removeDoubleQuotes (s : String) : String :=
  String.mk (s.toList.filter fun c => c ≠ '\"')

/-- Test of the JS regex `^-?\d+(\.\d+)?$` (source line 271): an optional
leading minus, one or more digits, optionally a dot followed by one or more
digits. -/
def isNumericLiteral (s : String) : Bool :=
  let cs := s.toList
  let cs := if cs.head? = some '-' then cs.tail else cs
  match cs.span Char.isDigit with
  | (ds, []) => !ds.isEmpty
  | (ds, '.' :: rest) => !ds.isEmpty && !rest.isEmpty && rest.all Char.isDigit
  | _ => false

/-- Test of the JS regex `^\d{4}-\d{2}-\d{2}/` (source line 285): the value
begins with four digits, a dash, two digits, a dash and two digits. -/
def hasLeadingDate (s : String) : Bool :=
  match s.toList with
  | a :: b :: c :: d :: '-' :: e :: f :: '-' :: g :: h :: _ =>
    a.isDigit && b.isDigit && c.isDigit && d.isDigit &&
      e.isDigit && f.isDigit && g.isDigit && h.isDigit
  | _ => false

/-- `formatValueAdvanced` (source lines 266-295): classify one decoded field
string into its SQL literal, first matching rule wins. -/
def formatValueAdvanced (value : String) : String :=
  if value = "\\N" ∨ value = "" then "NULL"
  else if isNumericLiteral value then value
  else if value = "t" ∨ value = "f" then "'" ++ value ++ "'"
  else if (jsStartsWith value "\x7b" && jsEndsWith value "\x7d") ||
      (jsStartsWith value "[" && jsEndsWith value "]") then
    "'" ++ doubleQuotes value ++ "'"
  else if hasLeadingDate value && jsIncludes value ":" then
    "'" ++ doubleQuotes value ++ "'"
  else
    "'" ++ removeNulls (doubleQuotes value) ++ "'"

/-- The while loop of `parseCopyLine` (source lines 219-259), transcribed as
recursion on the remaining characters, with `current` the accumulator. The
source's `inQuotes` flag is initialized to `false` and never assigned, so the
delimiter test `char === '\t' && !inQuotes` reduces to the tab test alone.
A backslash with no following character (the JS guard `i + 1 < line.length`
fails) falls through to the default branch and is kept as-is. -/
def parseCopyLineAux : List Char → List Char → List String
  | [], current => if current.isEmpty then [] else [String.mk current]
  | c :: rest, current =>
    if c = '\t' then
      String.mk current :: parseCopyLineAux rest []
    else if c = '\\' then
      match rest with
      | [] => parseCopyLineAux [] (current ++ [c])
      | next :: rest2 =>
        if next = 'N' then parseCopyLineAux rest2 (current ++ ['\\', 'N'])
        else if next = 't' then parseCopyLineAux rest2 (current ++ ['\t'])
        else if next = 'n' then parseCopyLineAux rest2 (current ++ ['\n'])
        else if next = '\\' then parseCopyLineAux rest2 (current ++ ['\\'])
        else parseCopyLineAux (next :: rest2) (current ++ ['\\'])
    else
      parseCopyLineAux rest (current ++ [c])

/-- `parseCopyLine` (source lines 219-259): tokenize one raw COPY data row. -/
def parseCopyLine (line : String) : List String :=
  parseCopyLineAux line.toList []

/-- A closed COPY block as pushed onto `this.data.copies` (source lines
51-55): table identifier, raw column list, and newline-joined row data. -/
structure CopyBlock where
  table : String
  columns : String
  data : String
  deriving DecidableEq

/-- The open block being accumulated (`currentCopy`, source lines 40-44). -/
structure OpenCopy where
  table : String
  columns : String
  data : List String
  deriving DecidableEq

/-- JS `line.replace(/\r$/, '')` (source line 35): strip one trailing
carriage return. -/
def stripCR (s : String) : String :=
  if jsEndsWith s "\r" then String.mk s.toList.dropLast else s

/-- Split a character list at the first occurrence of `c`: both returned
parts exclude that occurrence; `none` when `c` is absent. -/
def splitAtChar (c : Char) : List Char → Option (List Char × List Char)
  | [] => none
  | x :: xs =>
    if x = c then some ([], xs)
    else
      match splitAtChar c xs with
      | some (pre, post) => some (x :: pre, post)
      | none => none

/-- The header regex `^COPY ([^"]+"[^"]+") \(([^)]+)\) FROM stdin;?$`
(source line 37). Because each character class excludes the delimiter that
follows it, the regex match is deterministic: group 1 runs from after
`COPY ` through the second double quote (one or more non-quote characters,
a quote, one or more non-quote characters, a quote), then a space and `(`,
then group 2 is one or more non-`)` characters, then `)` and exactly
` FROM stdin` with an optional trailing semicolon. Returns
`some (group1, group2)` on a match. -/
def copyHeaderMatch (line : String) : Option (String × String) :=
  if jsStartsWith line "COPY " then
    match splitAtChar '\"' (line.toList.drop 5) with
    | none => none
    | some (a1, r1) =>
      if a1.isEmpty then none
      else
        match splitAtChar '\"' r1 with
        | none => none
        | some (a2, r2) =>
          if a2.isEmpty then none
          else
            match r2 with
            | ' ' :: '(' :: r3 =>
              match splitAtChar ')' r3 with
              | none => none
              | some (b, r4) =>
                if b.isEmpty then none
                else if r4 = " FROM stdin".toList || r4 = " FROM stdin;".toList then
                  some (String.mk (a1 ++ '\"' :: (a2 ++ ['\"'])), String.mk b)
                else none
            | _ => none
  else none

/-- The per-line state machine of `processDump` (source lines 34-64):
`cur` is the open block, if any. A matching COPY header always starts a
fresh open block (dropping any current one); the terminator `\.` closes the
open block and appends it; any other line while a block is open is
accumulated verbatim; lines outside a block are ignored; reaching the end
of the lines discards a still-open block. -/
def processLinesAux : List String → Option OpenCopy → List CopyBlock
  | [], _ => []
  | l :: rest, cur =>
    match copyHeaderMatch (stripCR l) with
    | some tc => processLinesAux rest (some ⟨tc.1, tc.2, []⟩)
    | none =>
      match cur with
      | some oc =>
        if stripCR l = "\\." then
          ⟨oc.table, oc.columns, joinWith "\n" oc.data⟩ :: processLinesAux rest none
        else
          processLinesAux rest (some ⟨oc.table, oc.columns, oc.data ++ [stripCR l]⟩)
      | none => processLinesAux rest none

/-- `processDump` (source lines 24-81), its pure core: split the dump text
on newlines and run the block extractor. -/
def processDump (content : String) : List CopyBlock :=
  processLinesAux (jsSplit content '\n') none

/-- The INSERT statement pushed at source line 118. -/
def insertLine (tableName colStr valStr : String) : String :=
  "INSERT INTO " ++ tableName ++ " (" ++ colStr ++ ") VALUES (" ++ valStr ++
    ") ON CONFLICT DO NOTHING;"

/-- The error entry pushed at source line 121. Note the counter is
`lineCount + 1` where `lineCount` counts the rows successfully inserted so
far for this table, not the position of the failing row. -/
def rowErrorEntry (tableName : String) (lineCount : Nat) (msg : String) : String :=
  "Erro na linha " ++ toString (lineCount + 1) ++ " da tabela " ++ tableName ++ ": " ++ msg

/-- Outcome of the `dataLines` loop of `generateInsertScript` (source lines
105-124): the INSERT lines pushed, the error entries recorded, and the
final `lineCount`. -/
structure RowsResult where
  lines : List String
  errs : List String
  count : Nat
  deriving DecidableEq

/-- The loop over `dataLines` (source lines 108-124), parameterized by the
row encoder `enc`: the shallow embedding of the try-block body
(`parseCopyLine`, `map formatValueAdvanced`, join). A JS exception thrown
by that body is modelled as `Except.error` with the exception message; the
catch block records the error entry and skips the row. Blank rows
(`!line.trim()`) are skipped without touching `lineCount`. -/
def processDataLines (enc : String → Except String String) (tableName colStr : String) :
    List String → Nat → RowsResult
  | [], lineCount => ⟨[], [], lineCount⟩
  | line :: rest, lineCount =>
    if jsTrim line = "" then processDataLines enc tableName colStr rest lineCount
    else
      match enc line with
      | .ok valStr =>
        let r := processDataLines enc tableName colStr rest (lineCount + 1)
        ⟨insertLine tableName colStr valStr :: r.lines, r.errs, r.count⟩
      | .error msg =>
        let r := processDataLines enc tableName colStr rest lineCount
        ⟨r.lines, rowErrorEntry tableName lineCount msg :: r.errs, r.count⟩

/-- The actual row encoder of the source (the try-block body at lines
112-116): tokenize the row, classify every field, and join with `, `. It is
total, so in the embedded semantics it never fails. -/
def encodeLine (line : String) : Except String String :=
  .ok (joinWith ", " ((parseCopyLine line).map formatValueAdvanced))

/-- One iteration of the copies loop of `generateInsertScript` (source
lines 99-130): the script lines pushed for this block and the error entries
recorded while processing it. -/
def tableSection (enc : String → Except String String) (cs : CopyBlock) :
    List String × List String :=
  let columnList := (jsSplit cs.columns ',').map jsTrim
  let colStr := joinWith ", " columnList
  let r := processDataLines enc cs.table colStr (jsSplit cs.data '\n') 0
  (("-- Dados para " ++ cs.table) :: r.lines ++
      (if r.count > 0 then
        ["-- " ++ toString r.count ++ " registros inseridos em " ++ cs.table]
      else []) ++ [""],
    r.errs)

/-- `addTriggerManagement` (source lines 152-168). -/
def addTriggerManagement (enable : Bool) : List String :=
  [ "-- " ++ (if enable then "Reabilitar" else "Desabilitar") ++
      " triggers para evitar problemas com foreign keys",
    "DO $$",
    "DECLARE",
    "r RECORD;",
    "BEGIN",
    "FOR r IN",
    "SELECT conname, conrelid::regclass::text AS table_name",
    "FROM pg_constraint",
    "WHERE contype = 'f'",
    "LOOP",
    "EXECUTE format('ALTER TABLE %s " ++ (if enable then "ENABLE" else "DISABLE") ++
      " TRIGGER ALL', r.table_name);",
    "END LOOP;",
    "END $$;",
    "" ]

/-- The column filter of `addSequenceAdjustment` (source lines 180-183):
keep the trimmed columns whose lowercased name contains the substring `id`
or the substring `_id` (the second test is subsumed by the first). -/
def idColumnsOf (columns : String) : List String :=
  ((jsSplit columns ',').map jsTrim).filter
    (fun col => jsIncludes (jsToLower col) "id" || jsIncludes (jsToLower col) "_id")

/-- The per-column PL/pgSQL block pushed at source lines 186-209. -/
def seqBlockLines (tableName idCol : String) : List String :=
  [ "-- Ajustar sequence para " ++ tableName ++ "." ++ idCol,
    "DO $$",
    "DECLARE",
    "    seq_name text;",
    "    max_val bigint;",
    "    col_exists boolean;",
    "BEGIN",
    "    -- Verificar se a coluna existe na tabela",
    "    SELECT EXISTS(",
    "        SELECT 1 FROM information_schema.columns",
    "        WHERE table_schema = split_part('" ++ tableName ++ "', '.', 1)",
    "        AND table_name = split_part('" ++ tableName ++ "', '.', 2)",
    "        AND column_name = '" ++ removeDoubleQuotes idCol ++ "'",
    "    ) INTO col_exists;",
    "    ",
    "    IF col_exists THEN",
    "        seq_name := pg_get_serial_sequence('" ++ tableName ++ "', '" ++
      removeDoubleQuotes idCol ++ "');",
    "        IF seq_name IS NOT NULL THEN",
    "            EXECUTE format('SELECT COALESCE(MAX(%I), 1) FROM " ++ tableName ++
      "', '" ++ removeDoubleQuotes idCol ++ "') INTO max_val;",
    "            EXECUTE format('SELECT setval(%L, %s)', seq_name, max_val);",
    "        END IF;",
    "    END IF;",
    "END $$;",
    "" ]

/-- `addSequenceAdjustment` (source lines 174-212): one PL/pgSQL block per
filtered column of every block. -/
def addSequenceAdjustment (copies : List CopyBlock) : List String :=
  "-- Ajustar sequences das chaves primárias" ::
    copies.flatMap (fun cs => (idColumnsOf cs.columns).flatMap (seqBlockLines cs.table))

/-- Number of per-column sequence-adjustment blocks in a line list: each
block starts with its `-- Ajustar sequence para ` comment. -/
def countSeqBlocks (lines : List String) : Nat :=
  lines.countP (fun l => jsStartsWith l "-- Ajustar sequence para ")

/-- The script lines between the five header lines and the trailing AVISOS
comments (source lines 96-133): trigger-disable block, per-table INSERT
sections, trigger-enable block, sequence adjustment. -/
def mainScriptBody (enc : String → Except String String) (copies : List CopyBlock) :
    List String :=
  addTriggerManagement false ++
    "-- Inserir dados" :: (copies.map (tableSection enc)).flatMap (fun s => s.1) ++
    addTriggerManagement true ++
    addSequenceAdjustment copies

/-- The extractor's error list after the copies loop: the errors it held
before the call (`this.errors`, empty on a successful run) followed by the
per-row entries recorded per block, in order. -/
def collectedErrors (enc : String → Except String String) (copies : List CopyBlock)
    (errors0 : List String) : List String :=
  errors0 ++ (copies.map (tableSection enc)).flatMap (fun s => s.2)

/-- The trailing AVISOS comments (source lines 135-142): present exactly
when the error list is non-empty, one `-- ` comment line per entry. -/
def avisosLines (errors : List String) : List String :=
  if errors.isEmpty then []
  else
    "-- AVISOS:" ::
      "-- Os seguintes erros foram encontrados durante o processamento:" ::
      errors.map (fun e => "-- " ++ e) ++ [""]

/-- `generateInsertScript` (source lines 87-145) as its list of lines,
parameterized by the row encoder and by the generation timestamp
(`new Date().toISOString()`). -/
def generateScriptLines (enc : String → Except String String) (copies : List CopyBlock)
    (errors0 : List String) (ts : String) : List String :=
  "-- Script de Inserção de Dados via INSERT INTO" ::
    "-- Gerado automaticamente a partir do dump" ::
    ("-- Data: " ++ ts) ::
    "-- Versão: Advanced" ::
    "" ::
    (mainScriptBody enc copies ++ avisosLines (collectedErrors enc copies errors0))

/-- The whole tool on one dump text (read file, extract blocks, generate
script), with the wall-clock timestamp as an explicit parameter: the script
lines written to the output file, before the final newline-join. On a
successful run the extractor's error list is empty when
`generateInsertScript` starts. -/
def runToolLines (content ts : String) : List String :=
  generateScriptLines encodeLine (processDump content) [] ts

/-- The output file's text: the script lines joined with newlines
(source line 144). -/
def runTool (content ts : String) : String :=
  joinWith "\n" (runToolLines content ts)

/-- A row encoder that fails on every row, standing for a try-block body
that throws; used to exercise the catch path of the copies loop. -/
def failEnc : String → Except String String :=
  fun _ => .error "boom"

/-- A row encoder that fails exactly on the row `bad`, standing for a
try-block body that throws on one specific row. -/
def badEnc0 : String → Except String String :=
  fun s => if s = "bad" then .error "boom" else .ok s

/-! Helper lemmas. -/

theorem hasSubList_iff (sub l : List Char) : hasSubList sub l = true ↔ sub <:+: l := by
  induction l with
  | nil => simp [hasSubList, List.isEmpty_iff, List.infix_nil]
  | cons c rest ih =>
    simp [hasSubList, List.infix_cons_iff, List.isPrefixOf_iff_prefix, ih]

theorem jsIncludes_underscore_id (s : String) :
    jsIncludes s "_id" = true → jsIncludes s "id" = true := by
  simp only [jsIncludes, hasSubList_iff]
  exact fun h => List.IsInfix.trans ⟨['_'], [], rfl⟩ h

theorem processDataLines_append (enc : String → Except String String) (t c : String)
    (xs ys : List String) (n : Nat) :
    processDataLines enc t c (xs ++ ys) n =
      ⟨(processDataLines enc t c xs n).lines ++
          (processDataLines enc t c ys (processDataLines enc t c xs n).count).lines,
        (processDataLines enc t c xs n).errs ++
          (processDataLines enc t c ys (processDataLines enc t c xs n).count).errs,
        (processDataLines enc t c ys (processDataLines enc t c xs n).count).count⟩ := by
  induction xs generalizing n with
  | nil => simp [processDataLines]
  | cons x xs ih =>
    by_cases hx : jsTrim x = ""
    · simp [processDataLines, hx, ih]
    · cases he : enc x with
      | ok v => simp [processDataLines, hx, he, ih]
      | error m => simp [processDataLines, hx, he, ih]

/-! Claim theorems. -/

/-- C1: the classifier maps a decoded field string to its SQL literal by the
first matching rule of the fixed precedence: the COPY NULL marker or the
empty string give unquoted `NULL`; a numeric-pattern match is returned
unchanged; exactly `t` or `f` is wrapped in single quotes; a
brace- or bracket-delimited value has its single quotes doubled and is
wrapped in quotes; a value with a leading date shape and a colon likewise;
otherwise single quotes are doubled, null characters removed, and the
result wrapped in quotes. In particular `\N` maps to `NULL`, `42` to `42`,
`3.14` to `3.14`, `t` to `'t'`, `O'Brien` to `'O''Brien'`, `{1,2,3}` to
`'{1,2,3}'`, and `2025-06-09 16:02:21.497` to `'2025-06-09 16:02:21.497'`. -/
theorem classifier_precedence :
    (∀ v : String, v = "\\N" ∨ v = "" → formatValueAdvanced v = "NULL")
  ∧ (∀ v : String, v ≠ "\\N" → v ≠ "" → isNumericLiteral v = true →
      formatValueAdvanced v = v)
  ∧ (∀ v : String, v = "t" ∨ v = "f" → formatValueAdvanced v = "'" ++ v ++ "'")
  ∧ (∀ v : String, v ≠ "\\N" → v ≠ "" → isNumericLiteral v = false → v ≠ "t" → v ≠ "f" →
      ((jsStartsWith v "\x7b" && jsEndsWith v "\x7d") ||
        (jsStartsWith v "[" && jsEndsWith v "]")) = true →
      formatValueAdvanced v = "'" ++ doubleQuotes v ++ "'")
  ∧ (∀ v : String, v ≠ "\\N" → v ≠ "" → isNumericLiteral v = false → v ≠ "t" → v ≠ "f" →
      ((jsStartsWith v "\x7b" && jsEndsWith v "\x7d") ||
        (jsStartsWith v "[" && jsEndsWith v "]")) = false →
      (hasLeadingDate v && jsIncludes v ":") = true →
      formatValueAdvanced v = "'" ++ doubleQuotes v ++ "'")
  ∧ (∀ v : String, v ≠ "\\N" → v ≠ "" → isNumericLiteral v = false → v ≠ "t" → v ≠ "f" →
      ((jsStartsWith v "\x7b" && jsEndsWith v "\x7d") ||
        (jsStartsWith v "[" && jsEndsWith v "]")) = false →
      (hasLeadingDate v && jsIncludes v ":") = false →
      formatValueAdvanced v = "'" ++ removeNulls (doubleQuotes v) ++ "'")
  ∧ formatValueAdvanced "\\N" = "NULL"
  ∧ formatValueAdvanced "42" = "42"
  ∧ formatValueAdvanced "3.14" = "3.14"
  ∧ formatValueAdvanced "t" = "'t'"
  ∧ formatValueAdvanced "O'Brien" = "'O''Brien'"
  ∧ formatValueAdvanced "\x7b1,2,3\x7d" = "'\x7b1,2,3\x7d'"
  ∧ formatValueAdvanced "2025-06-09 16:02:21.497" = "'2025-06-09 16:02:21.497'" := by
  refine ⟨?_, ?_, ?_, ?_, ?_, ?_, ?_, ?_, ?_, ?_, ?_, ?_, ?_⟩
  · rintro v (rfl | rfl) <;> decide
  · intro v h1 h2 h3
    simp only [formatValueAdvanced]
    rw [if_neg (not_or.mpr ⟨h1, h2⟩), if_pos h3]
  · rintro v (rfl | rfl) <;> decide
  · intro v h1 h2 h3 h4 h5 h6
    simp only [formatValueAdvanced]
    rw [if_neg (not_or.mpr ⟨h1, h2⟩), if_neg (by simp [h3]),
      if_neg (not_or.mpr ⟨h4, h5⟩), if_pos h6]
  · intro v h1 h2 h3 h4 h5 h6 h7
    simp only [formatValueAdvanced]
    rw [if_neg (not_or.mpr ⟨h1, h2⟩), if_neg (by simp [h3]),
      if_neg (not_or.mpr ⟨h4, h5⟩), if_neg (by simp [h6]), if_pos h7]
  · intro v h1 h2 h3 h4 h5 h6 h7
    simp only [formatValueAdvanced]
    rw [if_neg (not_or.mpr ⟨h1, h2⟩), if_neg (by simp [h3]),
      if_neg (not_or.mpr ⟨h4, h5⟩), if_neg (by simp [h6]), if_neg (by simp [h7])]
  · decide
  · decide
  · decide
  · decide
  · decide
  · decide
  · decide

/-- Witness for C1: the default rule applied at the concrete field
`O'Brien`, with every hypothesis of the rule discharged there. -/
theorem classifier_precedence_witness :
    formatValueAdvanced "O'Brien" = "'" ++ removeNulls (doubleQuotes "O'Brien") ++ "'" :=
  classifier_precedence.2.2.2.2.2.1 "O'Brien" (by decide) (by decide) (by decide)
    (by decide) (by decide) (by decide) (by decide)

/-- C2: the tokenizer scans left to right, splits fields on tabs, decodes
backslash escapes (`\N` kept as the literal two-character token, `\t` a
literal tab that does not delimit, `\n` a literal newline, `\\` a single
backslash, any other escaped character keeps the backslash and reprocesses
the next character), and emits a non-empty trailing accumulator as the
final field; the example row yields exactly its four fields. -/
theorem tokenizer_rules :
    parseCopyLine "1\tJoão Silva\t\\N\t2025-06-09 16:02:21.497" =
      ["1", "João Silva", "\\N", "2025-06-09 16:02:21.497"]
  ∧ (∀ (rest : List Char) (cur : List Char),
      parseCopyLineAux ('\t' :: rest) cur = String.mk cur :: parseCopyLineAux rest [])
  ∧ (∀ (rest : List Char) (cur : List Char),
      parseCopyLineAux ('\\' :: 'N' :: rest) cur = parseCopyLineAux rest (cur ++ ['\\', 'N']))
  ∧ (∀ (rest : List Char) (cur : List Char),
      parseCopyLineAux ('\\' :: 't' :: rest) cur = parseCopyLineAux rest (cur ++ ['\t']))
  ∧ (∀ (rest : List Char) (cur : List Char),
      parseCopyLineAux ('\\' :: 'n' :: rest) cur = parseCopyLineAux rest (cur ++ ['\n']))
  ∧ (∀ (rest : List Char) (cur : List Char),
      parseCopyLineAux ('\\' :: '\\' :: rest) cur = parseCopyLineAux rest (cur ++ ['\\']))
  ∧ (∀ (c : Char) (rest cur : List Char), c ≠ 'N' → c ≠ 't' → c ≠ 'n' → c ≠ '\\' →
      parseCopyLineAux ('\\' :: c :: rest) cur = parseCopyLineAux (c :: rest) (cur ++ ['\\']))
  ∧ (∀ (c : Char) (rest cur : List Char), c ≠ '\t' → c ≠ '\\' →
      parseCopyLineAux (c :: rest) cur = parseCopyLineAux rest (cur ++ [c]))
  ∧ (∀ cur : List Char, cur ≠ [] → parseCopyLineAux [] cur = [String.mk cur]) := by
  refine ⟨by decide, ?_, ?_, ?_, ?_, ?_, ?_, ?_, ?_⟩
  · intro rest cur
    rw [parseCopyLineAux.eq_def]
    simp
  · intro rest cur
    rw [parseCopyLineAux.eq_def]
    simp
  · intro rest cur
    rw [parseCopyLineAux.eq_def]
    simp
  · intro rest cur
    rw [parseCopyLineAux.eq_def]
    simp
  · intro rest cur
    rw [parseCopyLineAux.eq_def]
    simp
  · intro c rest cur h1 h2 h3 h4
    rw [parseCopyLineAux.eq_def]
    simp [h1, h2, h3, h4]
  · intro c rest cur h1 h2
    rw [parseCopyLineAux.eq_def]
    simp [h1, h2]
  · intro cur h
    cases cur with
    | nil => exact absurd rfl h
    | cons a t =>
      rw [parseCopyLineAux.eq_def]
      simp

/-- Witness for C2: the generic-escape rule applied at the concrete
character `x`, all hypotheses discharged there. -/
theorem tokenizer_rules_witness :
    parseCopyLineAux ['\\', 'x'] [] = parseCopyLineAux ['x'] ['\\'] :=
  tokenizer_rules.2.2.2.2.2.2.1 'x' [] [] (by decide) (by decide) (by decide) (by decide)

/-- C3 counterexample: the claim asserts that a column named `valid` on
table `public.media` triggers no sequence-adjustment block, but the
source's filter keeps any column whose lowercased name contains the
substring `id`, and `valid` does: exactly one block is emitted for it. -/
theorem seq_adjust_valid_counterexample :
    idColumnsOf "valid" = ["valid"] ∧
    countSeqBlocks (addSequenceAdjustment [⟨"public.media", "valid", ""⟩]) = 1 ∧
    countSeqBlocks (addSequenceAdjustment [⟨"public.media", "valid", ""⟩]) ≠ 0 := by
  decide

/-- C3 (amended): the sequence-adjustment section emits exactly one
PL/pgSQL block per declared column whose trimmed, lowercased name contains
the substring `id` (the source's extra `_id` test is subsumed), and none
for other columns; `videoId` on `public.media` triggers exactly one block
referencing `public.media` and `videoId`, and `valid` and `invalidation`
each trigger exactly one as well, since both contain `id`. -/
theorem seq_adjust_id_substring :
    (∀ columns : String, idColumnsOf columns =
        ((jsSplit columns ',').map jsTrim).filter (fun col => jsIncludes (jsToLower col) "id"))
  ∧ (∀ copies : List CopyBlock, addSequenceAdjustment copies =
        "-- Ajustar sequences das chaves primárias" ::
          copies.flatMap (fun cs => (idColumnsOf cs.columns).flatMap (seqBlockLines cs.table)))
  ∧ countSeqBlocks (addSequenceAdjustment
      [⟨"public.media", "videoId, valid, invalidation", ""⟩]) = 3
  ∧ idColumnsOf "videoId, valid, invalidation" = ["videoId", "valid", "invalidation"]
  ∧ addSequenceAdjustment [⟨"public.media", "videoId", ""⟩] =
      "-- Ajustar sequences das chaves primárias" :: seqBlockLines "public.media" "videoId"
  ∧ countSeqBlocks (addSequenceAdjustment [⟨"public.media", "videoId", ""⟩]) = 1 := by
  refine ⟨?_, fun copies => rfl, by decide, by decide, by decide, by decide⟩
  intro columns
  simp only [idColumnsOf]
  apply List.filter_congr
  intro x _
  cases h : jsIncludes (jsToLower x) "id" with
  | true => simp [h]
  | false =>
    simp only [h, Bool.false_or]
    cases h2 : jsIncludes (jsToLower x) "_id" with
    | false => rfl
    | true => exact absurd (jsIncludes_underscore_id _ h2) (by simp [h])

/-- C4: when the encoding of one data row fails, the catch block records
exactly one error entry for it, that row contributes no INSERT statement,
and the INSERT statements of every other successfully encoded row — before
and after it, and of every other table, whose sections are assembled
independently — are still emitted; the run continues. -/
theorem row_error_recovery :
    (∀ (enc : String → Except String String) (t colStr : String) (pre post : List String)
        (bad msg : String) (n : Nat), jsTrim bad ≠ "" → enc bad = .error msg →
        processDataLines enc t colStr (pre ++ bad :: post) n =
          ⟨(processDataLines enc t colStr pre n).lines ++
              (processDataLines enc t colStr post
                (processDataLines enc t colStr pre n).count).lines,
            (processDataLines enc t colStr pre n).errs ++
              rowErrorEntry t (processDataLines enc t colStr pre n).count msg ::
                (processDataLines enc t colStr post
                  (processDataLines enc t colStr pre n).count).errs,
            (processDataLines enc t colStr post
              (processDataLines enc t colStr pre n).count).count⟩)
  ∧ (∀ (enc : String → Except String String) (copies : List CopyBlock)
        (errors0 : List String) (ts : String),
        generateScriptLines enc copies errors0 ts =
          "-- Script de Inserção de Dados via INSERT INTO" ::
            "-- Gerado automaticamente a partir do dump" ::
            ("-- Data: " ++ ts) :: "-- Versão: Advanced" :: "" ::
            (addTriggerManagement false ++
              "-- Inserir dados" :: (copies.map (tableSection enc)).flatMap (fun s => s.1) ++
              (addTriggerManagement true ++ (addSequenceAdjustment copies ++
                avisosLines (collectedErrors enc copies errors0))))) := by
  constructor
  · intro enc t colStr pre post bad msg n hb he
    rw [processDataLines_append]
    simp [processDataLines, hb, he]
  · intro enc copies errors0 ts
    simp [generateScriptLines, mainScriptBody, List.append_assoc]

/-- Witness for C4: an encoder failing exactly on the row `bad`, between
the valid rows `1` and `2`, at a concrete state. -/
theorem row_error_recovery_witness :
    jsTrim "bad" ≠ "" ∧
    processDataLines badEnc0 "t" "a" (["1"] ++ "bad" :: ["2"]) 0 =
      ⟨(processDataLines badEnc0 "t" "a" ["1"] 0).lines ++
          (processDataLines badEnc0 "t" "a" ["2"]
            (processDataLines badEnc0 "t" "a" ["1"] 0).count).lines,
        (processDataLines badEnc0 "t" "a" ["1"] 0).errs ++
          rowErrorEntry "t" (processDataLines badEnc0 "t" "a" ["1"] 0).count "boom" ::
            (processDataLines badEnc0 "t" "a" ["2"]
              (processDataLines badEnc0 "t" "a" ["1"] 0).count).errs,
        (processDataLines badEnc0 "t" "a" ["2"]
          (processDataLines badEnc0 "t" "a" ["1"] 0).count).count⟩ :=
  ⟨by decide, row_error_recovery.1 badEnc0 "t" "a" ["1"] ["2"] "bad" "boom" 0 (by decide) rfl⟩

/-- C5 counterexample: two consecutive failing rows of table `usuarios` are
both recorded with counter 1, because the counter is one plus the number of
successfully inserted rows so far, not the failing row's position — so the
recorded counter does not identify the failing row. -/
theorem row_counter_counterexample :
    (processDataLines failEnc "usuarios" "a" ["x", "y"] 0).errs =
      ["Erro na linha 1 da tabela usuarios: boom",
        "Erro na linha 1 da tabela usuarios: boom"] := by
  decide

/-- C5 (amended): every per-row recoverable error is recorded with the
table name and the 1-based counter `lineCount + 1`, where `lineCount` is
the number of rows successfully inserted so far for that table (this equals
the failing row's position only when every earlier non-blank row
succeeded); after all tables are processed, every recorded error is
appended to the end of the generated script as a SQL comment line prefixed
with `-- `. -/
theorem row_error_entry_amended :
    (∀ (t : String) (n : Nat) (msg : String),
        rowErrorEntry t n msg =
          "Erro na linha " ++ toString (n + 1) ++ " da tabela " ++ t ++ ": " ++ msg)
  ∧ (∀ (enc : String → Except String String) (t c line msg : String)
        (rest : List String) (n : Nat),
        jsTrim line ≠ "" → enc line = .error msg →
        processDataLines enc t c (line :: rest) n =
          ⟨(processDataLines enc t c rest n).lines,
            rowErrorEntry t n msg :: (processDataLines enc t c rest n).errs,
            (processDataLines enc t c rest n).count⟩)
  ∧ (∀ (enc : String → Except String String) (copies : List CopyBlock)
        (errors0 : List String) (ts : String),
        collectedErrors enc copies errors0 ≠ [] →
        generateScriptLines enc copies errors0 ts =
          ("-- Script de Inserção de Dados via INSERT INTO" ::
            "-- Gerado automaticamente a partir do dump" ::
            ("-- Data: " ++ ts) :: "-- Versão: Advanced" :: "" :: mainScriptBody enc copies) ++
            "-- AVISOS:" ::
              "-- Os seguintes erros foram encontrados durante o processamento:" ::
              (collectedErrors enc copies errors0).map (fun e => "-- " ++ e) ++ [""]) := by
  refine ⟨fun t n msg => rfl, ?_, ?_⟩
  · intro enc t c line msg rest n h1 h2
    simp [processDataLines, h1, h2]
  · intro enc copies errors0 ts h
    simp [generateScriptLines, avisosLines, h]

/-- Witness for C5: the failing-row rule applied at the concrete row `z`
with three prior successes. -/
theorem row_error_entry_amended_witness :
    processDataLines failEnc "tab" "c" ["z"] 3 =
      ⟨(processDataLines failEnc "tab" "c" [] 3).lines,
        rowErrorEntry "tab" 3 "boom" :: (processDataLines failEnc "tab" "c" [] 3).errs,
        (processDataLines failEnc "tab" "c" [] 3).count⟩ :=
  row_error_entry_amended.2.1 failEnc "tab" "c" "z" "boom" [] 3 (by decide) rfl

/-- C6: the tokenizer emits the trailing accumulator as a final field only
when it is non-empty, so a row ending at a delimiter boundary drops its
final empty field, while an empty field immediately before a tab elsewhere
in the row is preserved. -/
theorem trailing_empty_field :
    (∀ cur : List Char, parseCopyLineAux [] cur = if cur.isEmpty then [] else [String.mk cur])
  ∧ (∀ rest : List Char, parseCopyLineAux ('\t' :: rest) [] = "" :: parseCopyLineAux rest [])
  ∧ parseCopyLine "a\tb\t" = ["a", "b"]
  ∧ parseCopyLine "a\t\tb" = ["a", "", "b"] := by
  refine ⟨?_, ?_, by decide, by decide⟩
  · intro cur
    cases cur with
    | nil => rw [parseCopyLineAux.eq_def]
    | cons a t => rw [parseCopyLineAux.eq_def]
  · intro rest
    rw [parseCopyLineAux.eq_def]
    simp

/-- C7: a COPY header block never followed by a `\.` terminator line is
silently discarded — with no terminator among the remaining lines, the
output is the same as if no block were open, and reaching the end of the
input with a block open emits nothing; concretely, a dump whose only block
is unterminated produces no extracted blocks. -/
theorem unterminated_block_discarded :
    (∀ lines : List String, (∀ l ∈ lines, stripCR l ≠ "\\.") →
        ∀ oc : OpenCopy, processLinesAux lines (some oc) = processLinesAux lines none)
  ∧ processDump "COPY public.\"media\" (id) FROM stdin;\n1\n2" = [] := by
  constructor
  · intro lines
    induction lines with
    | nil => intro _ oc; rfl
    | cons l rest ih =>
      intro hyp oc
      have hl : stripCR l ≠ "\\." := hyp l (List.mem_cons_self _ _)
      have hrest : ∀ x ∈ rest, stripCR x ≠ "\\." :=
        fun x hx => hyp x (List.mem_cons_of_mem _ hx)
      simp only [processLinesAux]
      cases hcm : copyHeaderMatch (stripCR l) with
      | some tc => rfl
      | none =>
        dsimp only
        rw [if_neg hl]
        exact ih hrest _
  · decide

/-- Witness for C7: a one-line remainder with no terminator, at a concrete
open block. -/
theorem unterminated_block_discarded_witness :
    processLinesAux ["1"] (some ⟨"t", "c", []⟩) = processLinesAux ["1"] none :=
  unterminated_block_discarded.1 ["1"] (by decide) ⟨"t", "c", []⟩

/-- C8: the encoder performs no arity cross-check — a non-blank row whose
field count differs from the declared column count still silently yields an
INSERT statement pairing the full joined column list with the row's own
values, and records no error entry. -/
theorem no_arity_check :
    ∀ (tableName columns line : String) (rest : List String) (n : Nat),
      jsTrim line ≠ "" →
      (parseCopyLine line).length ≠ ((jsSplit columns ',').map jsTrim).length →
      processDataLines encodeLine tableName (joinWith ", " ((jsSplit columns ',').map jsTrim))
          (line :: rest) n =
        ⟨insertLine tableName (joinWith ", " ((jsSplit columns ',').map jsTrim))
              (joinWith ", " ((parseCopyLine line).map formatValueAdvanced)) ::
            (processDataLines encodeLine tableName
              (joinWith ", " ((jsSplit columns ',').map jsTrim)) rest (n + 1)).lines,
          (processDataLines encodeLine tableName
            (joinWith ", " ((jsSplit columns ',').map jsTrim)) rest (n + 1)).errs,
          (processDataLines encodeLine tableName
            (joinWith ", " ((jsSplit columns ',').map jsTrim)) rest (n + 1)).count⟩ := by
  intro tableName columns line rest n h1 _
  simp [processDataLines, h1, encodeLine]

/-- Witness for C8: one field against two declared columns (`a, b`) — the
INSERT is still emitted and no error recorded. -/
theorem no_arity_check_witness :
    (parseCopyLine "1").length ≠ ((jsSplit "a, b" ',').map jsTrim).length ∧
    processDataLines encodeLine "t" (joinWith ", " ((jsSplit "a, b" ',').map jsTrim)) ["1"] 0 =
      ⟨[insertLine "t" (joinWith ", " ((jsSplit "a, b" ',').map jsTrim))
            (joinWith ", " ((parseCopyLine "1").map formatValueAdvanced))], [], 1⟩ :=
  ⟨by decide, no_arity_check "t" "a, b" "1" [] 0 (by decide) (by decide)⟩

/-- C9: the generated script is a deterministic function of the dump text
except for the generation-timestamp line — two runs on the same content
share all lines before and after the `-- Data: ` line, which is the third
line of the output. -/
theorem timestamp_only_nondeterminism :
    ∀ content ts1 ts2 : String, ∃ post : List String,
      runToolLines content ts1 =
        "-- Script de Inserção de Dados via INSERT INTO" ::
          "-- Gerado automaticamente a partir do dump" :: ("-- Data: " ++ ts1) :: post ∧
      runToolLines content ts2 =
        "-- Script de Inserção de Dados via INSERT INTO" ::
          "-- Gerado automaticamente a partir do dump" :: ("-- Data: " ++ ts2) :: post ∧
      runTool content ts1 = joinWith "\n"
        ("-- Script de Inserção de Dados via INSERT INTO" ::
          "-- Gerado automaticamente a partir do dump" :: ("-- Data: " ++ ts1) :: post) :=
  fun content ts1 ts2 => ⟨_, rfl, rfl, rfl⟩

/-- C10: a second COPY header while a block is still open silently discards
the open block — the result is that of continuing with a fresh block for
the new header's table and columns, with no row data and without the header
line itself being accumulated; concretely, only the second block of the
example dump is extracted. -/
theorem header_reopens_block :
    (∀ (h : String) (lines : List String) (oc : OpenCopy) (t c : String),
        copyHeaderMatch (stripCR h) = some (t, c) →
        processLinesAux (h :: lines) (some oc) = processLinesAux lines (some ⟨t, c, []⟩))
  ∧ processDump
      "COPY public.\"a\" (id) FROM stdin;\n1\nCOPY public.\"b\" (x) FROM stdin;\n2\n\\." =
      [⟨"public.\"b\"", "x", "2"⟩] := by
  constructor
  · intro h lines oc t c hcm
    simp only [processLinesAux, hcm]
  · decide

/-- Witness for C10: the concrete second header replacing a concrete open
block. -/
theorem header_reopens_block_witness :
    processLinesAux ["COPY public.\"a\" (id) FROM stdin;"] (some ⟨"old", "cols", ["r"]⟩) =
      processLinesAux [] (some ⟨"public.\"a\"", "id", []⟩) :=
  header_reopens_block.1 "COPY public.\"a\" (id) FROM stdin;" [] ⟨"old", "cols", ["r"]⟩
    "public.\"a\"" "id" (by decide)

end DumpProc
